import Mathlib

/-!
Verification of the hanja-lookup core of `gajibot-discord` (src/main.rs).

The Rust program resolves a search query to a dictionary entry id by raw
substring scanning, extracts a reading from the entry page, parses the
supplementary-examples HTML fragment into a description string, and formats
the final reply.  Below, the markup tree is modelled as `Node`, scraper's
element iteration / selection / text collection as list functions on `Node`,
and every string operation mirrors the exact Rust call
(`str::trim`, `str::split_once`, `starts_with`/`ends_with` on a char,
`String::push_str`).
-/

/-- A markup node: either a text node or an element carrying its raw
`class` attribute (the only attribute the program reads) and children. -/
inductive Node where
  | text (s : String)
  | elem (classAttr : Option String) (children : List Node)

/-- Rust `char::is_whitespace`: the Unicode `White_Space` property.
Crucially this includes U+00A0 (non-breaking space), which `str::trim`
therefore strips. -/
def rustIsWhitespace (c : Char) : Bool :=
  c == '\t' || c == '\n' || c == '\x0b' || c == '\x0c' || c == '\r' ||
  c == ' ' || c == '\u0085' || c == '\u00A0' || c == '\u1680' ||
  (0x2000 ≤ c.toNat && c.toNat ≤ 0x200A) ||
  c == '\u2028' || c == '\u2029' || c == '\u202F' || c == '\u205F' ||
  c == '\u3000'

/-- Rust `str::trim`: drop `White_Space` characters from both ends. -/
def rustTrim (s : String) : String :=
  ⟨((s.data.dropWhile rustIsWhitespace).reverse.dropWhile rustIsWhitespace).reverse⟩

/-- Whether a node is an element (scraper iterates only element children). -/
def isElem : Node → Bool
  | .elem _ _ => true
  | .text _ => false

/-- scraper `ElementRef::child_elements`: the element children, in order. -/
def childElements : Node → List Node
  | .text _ => []
  | .elem _ cs => cs.filter isElem

/-- The raw `class` attribute, as read by `child.attr("class")`. -/
def attrClass : Node → Option String
  | .text _ => none
  | .elem a _ => a

/-- ASCII whitespace, the separator set of the HTML `class` attribute. -/
def isAsciiWs (c : Char) : Bool :=
  c == ' ' || c == '\t' || c == '\n' || c == '\r' || c == '\x0c'

/-- Right-fold tokenizer: returns the run of non-separator characters at
the front and the completed tokens after it. -/
def tokenizeAux (sep : Char → Bool) : List Char → List Char × List String
  | [] => ([], [])
  | c :: rest =>
      let r := tokenizeAux sep rest
      if sep c then
        ([], match r.1 with
             | [] => r.2
             | _ => ⟨r.1⟩ :: r.2)
      else
        (c :: r.1, r.2)

/-- The maximal nonempty runs of non-separator characters, in order. -/
def tokenize (sep : Char → Bool) (l : List Char) : List String :=
  match tokenizeAux sep l with
  | ([], toks) => toks
  | (cur, toks) => ⟨cur⟩ :: toks

/-- The class attribute parsed as a whitespace-separated token set, the
form in which CSS class selectors test membership. -/
def classTokens (n : Node) : List String :=
  match attrClass n with
  | none => []
  | some s => tokenize isAsciiWs s.data

/-- Membership of one class token, as a CSS `.cls` selector tests it. -/
def hasClassTok (n : Node) (c : String) : Bool :=
  (classTokens n).contains c

/-- Selector `.desc_ruby` (field `ruby` of struct `Hanja`). -/
def isRuby (n : Node) : Bool := hasClassTok n "desc_ruby"

/-- Selector `.desc_ex` (field `reading` of struct `Hanja`). -/
def isReading (n : Node) : Bool := hasClassTok n "desc_ex"

/-- Selector `.txt_refer.on` (field `refer` of struct `Hanja`). -/
def isRefer (n : Node) : Bool := hasClassTok n "txt_refer" && hasClassTok n "on"

/-- Selector `.txt_read` (field `read` of struct `Hanja`). -/
def isRead (n : Node) : Bool := hasClassTok n "txt_read"

mutual

/-- All text runs below a node, in document (pre-)order: scraper's
`ElementRef::text` iterator. -/
def textRuns : Node → List String
  | .text s => [s]
  | .elem _ cs => textList cs
termination_by structural n => n

/-- `textRuns` over a forest, left to right. -/
def textList : List Node → List String
  | [] => []
  | n :: ns => textRuns n ++ textList ns
termination_by structural ns => ns

end

mutual

/-- The proper descendant elements of a node in document order: the nodes
scraper's `ElementRef::select` traverses (it skips the element itself). -/
def descElems : Node → List Node
  | .text _ => []
  | .elem _ cs => descList cs
termination_by structural n => n

/-- Descendant elements of a forest: each root (if an element), then its
descendants, then the later siblings. -/
def descList : List Node → List Node
  | [] => []
  | n :: ns => (if isElem n then [n] else []) ++ descElems n ++ descList ns
termination_by structural ns => ns

end

/-- scraper `ElementRef::select` with a class-based selector: the proper
descendant elements matching the predicate, in document order. -/
def select (p : Node → Bool) (n : Node) : List Node :=
  (descElems n).filter p

/-- The local Rust helper `extract_text`:
`text.collect::<String>().trim().to_string()`. -/
def extract_text (n : Node) : String :=
  rustTrim (String.join (textRuns n))

/-- Rust `s.starts_with('\u{00a0}') && s.ends_with('\u{00a0}')`
(main.rs line 139): the citation-run test --- the run's first and its last
character are both the non-breaking space U+00A0. -/
def isCitRun (s : String) : Bool :=
  s.data.head? == some '\u00A0' && s.data.getLast? == some '\u00A0'

/-- One step of the `for s in ruby.text()` loop (main.rs lines 138-144):
a run whose first and last character are U+00A0 becomes the (trimmed)
citation, overwriting any earlier one; every other run is appended to the
phrase accumulator. -/
def splitStep (acc : Option String × String) (s : String) : Option String × String :=
  if isCitRun s then
    (some (rustTrim s), acc.2)
  else
    (acc.1, acc.2 ++ s)

/-- The whole ruby-text loop: fold `splitStep` over the text runs starting
from `(None, "")`, returning `(from, phrase)`. -/
def splitRuns (runs : List String) : Option String × String :=
  runs.foldl splitStep (none, "")

/-- Handling of one `item_example` list child `li` (main.rs lines 133-157):
if a `.desc_ruby` descendant exists, emit `"> "`, the trimmed phrase, the
`.desc_ex` reading in parentheses when present, and the citation wrapped in
`" 《"`/`"》"` when present, then a newline; otherwise emit nothing. -/
def liBlock (li : Node) : String :=
  match select isRuby li with
  | [] => ""
  | ruby :: _ =>
      let fp := splitRuns (textRuns ruby)
      "> " ++ rustTrim fp.2 ++
        (match select isReading li with
         | [] => ""
         | ex :: _ => "(" ++ extract_text ex ++ ")") ++
        (match fp.1 with
         | none => ""
         | some f => " 《" ++ f ++ "》") ++ "\n"

/-- Handling of a whole `item_example` element: concatenate the blocks of
its element children, in order. -/
def itemExample (child : Node) : String :=
  String.join ((childElements child).map liBlock)

/-- Handling of an `ex_refer` element (main.rs lines 159-164): the fixed
glyph marker, then the trimmed text of every `.txt_refer.on` descendant
concatenated with no separator, then a newline. -/
def exRefer (child : Node) : String :=
  "<:rui:1363124010136764516> " ++
    String.join ((select isRefer child).map extract_text) ++ "\n"

/-- The description-building `while let Some(child) = children.next()` loop
(main.rs lines 119-166) over the flattened content-element sequence.
A `wrap_ex` element consumes the following content element (whatever its
class) as a continuation of the same line; `item_example` and `ex_refer`
emit their blocks; anything else is skipped. -/
def hanjaDescription : List Node → String
  | [] => ""
  | child :: rest =>
    if attrClass child = some "wrap_ex" then
      match rest with
      | [] => extract_text child ++ "\n"
      | next :: rest2 =>
          extract_text child ++ " " ++ extract_text next ++ "\n" ++
            hanjaDescription rest2
    else if attrClass child = some "item_example" then
      itemExample child ++ hanjaDescription rest
    else if attrClass child = some "ex_refer" then
      exRefer child ++ hanjaDescription rest
    else
      hanjaDescription rest

/-- The flattening of the supplement fragment (main.rs lines 115-118):
the element children of the root's element children. -/
def contentElements (root : Node) : List Node :=
  (childElements root).flatMap childElements

/-- The result of the reading extraction: the Rust code calls
`Option::unwrap` on the first `.txt_read` match, so a missing marker does
not produce an error value — it panics, aborting the whole process. -/
inductive ReadOutcome where
  | ok (reading : String)
  | panicked
deriving DecidableEq

/-- The reading extraction (main.rs lines 91-99): the concatenated
descendant text of the first `.txt_read` element; `.unwrap()` panic when
the selector matches nothing. -/
def extractReading (doc : Node) : ReadOutcome :=
  match select isRead doc with
  | [] => .panicked
  | el :: _ => .ok (String.join (textRuns el))

/-- The error kind the specification prescribes for a missing required
structural marker. -/
inductive DictError where
  | unexpectedStructure
deriving DecidableEq

/-- Modelled from the spec (§4.3, §7), for comparison with `extractReading`:
"absence indicates an unexpected upstream change and must surface as an
explicit error" — the same extraction but with a contained
`UnexpectedStructure` error instead of a crash. -/
def specExtractReading (doc : Node) : Except DictError String :=
  match select isRead doc with
  | [] => .error .unexpectedStructure
  | el :: _ => .ok (String.join (textRuns el))

/-- Modelled from the spec's words for the citation rule, for comparison
with the code's `str::trim`: "the rule string is stripped of its enclosing
non-breaking spaces" — remove the U+00A0 characters (and only those) from
both ends of the run. -/
def specStripEnclosingNbsp (s : String) : String :=
  ⟨((s.data.dropWhile (fun c => c == '\u00A0')).reverse.dropWhile
      (fun c => c == '\u00A0')).reverse⟩

/-- Rust `str::split_once` on char lists: split at the first occurrence of
`pat`, returning the parts before and after it. -/
def splitOnceL (pat : List Char) : List Char → Option (List Char × List Char)
  | [] => if pat.isPrefixOf ([] : List Char) then some ([], []) else none
  | c :: rest =>
    if pat.isPrefixOf (c :: rest) then some ([], (c :: rest).drop pat.length)
    else (splitOnceL pat rest).map (fun p => (c :: p.1, p.2))

/-- Rust `str::split_once` on strings. -/
def splitOnceS (s pat : String) : Option (String × String) :=
  (splitOnceL pat.data s.data).map (fun p => (⟨p.1⟩, ⟨p.2⟩))

/-- The literal entry-link marker searched for in the results page. -/
def wordidMarker : String := "/word/view.do?wordid="

/-- The literal headword marker searched for after the entry link. -/
def emphMarker : String := "class=\"txt_emph1\">"

/-- The search-resolution block (main.rs lines 58-79): find the first
entry-link marker, take the id up to the next quote, find the first
headword marker after it, and accept exactly when the following text
starts with the query. -/
def resolveEntry (hanja body : String) : Option String :=
  match splitOnceS body wordidMarker with
  | none => none
  | some (_, linkStart) =>
    match splitOnceS linkStart "\"" with
    | none => none
    | some (urlBack, rest) =>
      match splitOnceS rest emphMarker with
      | none => none
      | some (_, x) => if hanja.data.isPrefixOf x.data then some urlBack else none

/-- The final reply formatting (main.rs lines 175-179):
`format!("# {hanja}\n**{reading}**\n{description}")` with the reading
trimmed. -/
def formatOutput (hanja reading description : String) : String :=
  "# " ++ hanja ++ "\n**" ++ rustTrim reading ++ "**\n" ++ description

/-! ### Concrete sample documents used in the claim theorems -/

/-- A plain-example element: class `wrap_ex`, text `" fst "`. -/
def wrapA : Node := .elem (some "wrap_ex") [.text " fst "]

/-- A second plain-example element, used as the consumed continuation. -/
def wrapB : Node := .elem (some "wrap_ex") [.text " snd "]

/-- A ruby span whose text runs are a phrase run and a U+00A0-delimited
citation run. -/
def rubySpan : Node :=
  .elem (some "desc_ruby") [.text "水道", .text "\u00A0전운옥편\u00A0"]

/-- A reading-example span. -/
def readingSpan : Node := .elem (some "desc_ex") [.text " 수도 "]

/-- A list child containing both a ruby span and a reading span. -/
def sampleLi : Node := .elem none [rubySpan, readingSpan]

/-- A list child with no phonetic-annotation sub-element. -/
def bareLi : Node := .elem none [.text "plain"]

/-- An `item_example` list with one annotated child and one bare child. -/
def itemElem : Node := .elem (some "item_example") [sampleLi, bareLi]

/-- An `ex_refer` element with two active-reference spans `A` and `B`. -/
def referSample : Node :=
  .elem (some "ex_refer")
    [.elem (some "txt_refer on") [.text "A"], .elem (some "txt_refer on") [.text "B"]]

/-- A content element with an unrecognized class marker. -/
def mysteryElem : Node := .elem (some "mystery") [.text "x"]

/-- An entry document with no `.txt_read` element. -/
def docNoRead : Node := .elem none [.elem (some "other") [.text "x"]]

/-- An entry document whose `.txt_read` element holds the reading. -/
def docRead : Node := .elem none [.elem (some "txt_read") [.text "물 수"]]

/-- A search-results body whose first candidate has id `12345` and
headword `水道`. -/
def searchBody1 : String :=
  "z/word/view.do?wordid=12345\" class=\"txt_emph1\">水道</a>"

/-- A search-results body whose first candidate has headword `火`, not
matching the query `水`, followed by a second candidate that would match. -/
def searchBody2 : String :=
  "a/word/view.do?wordid=111\" class=\"txt_emph1\">火</a> b/word/view.do?wordid=222\" class=\"txt_emph1\">水</a>"

/-- A search-results body with an entry link but no headword marker. -/
def searchBody3 : String := "x/word/view.do?wordid=9\" nothing"

/-! ### Helper lemmas -/

theorem data_empty_str : ("" : String).data = ([] : List Char) := rfl

theorem str_append_assoc (a b c : String) : a ++ b ++ c = a ++ (b ++ c) := by
  apply String.ext
  simp [String.data_append]

theorem str_append_empty (s : String) : s ++ "" = s := by
  apply String.ext
  simp [String.data_append, data_empty_str]

theorem str_empty_append (s : String) : "" ++ s = s := by
  apply String.ext
  simp [String.data_append, data_empty_str]

theorem join_foldl (l : List String) :
    ∀ acc : String, l.foldl (fun r s => r ++ s) acc = acc ++ String.join l := by
  induction l with
  | nil => intro acc; simp [String.join, str_append_empty]
  | cons s rest ih =>
      intro acc
      have h2 : String.join (s :: rest) = s ++ String.join rest := by
        show (s :: rest).foldl (fun r s => r ++ s) "" = _
        rw [List.foldl_cons, ih, str_empty_append]
      rw [List.foldl_cons, ih, h2, str_append_assoc]

theorem join_cons (s : String) (l : List String) :
    String.join (s :: l) = s ++ String.join l := by
  show (s :: l).foldl (fun r s => r ++ s) "" = _
  rw [List.foldl_cons, join_foldl, str_empty_append]

theorem find?_app {α : Type} (p : α → Bool) :
    ∀ l₁ l₂ : List α,
      List.find? p (l₁ ++ l₂) = (List.find? p l₁).elim (List.find? p l₂) some := by
  intro l₁
  induction l₁ with
  | nil => intro l₂; simp
  | cons a l ih =>
      intro l₂
      by_cases hpa : p a
      · simp [List.find?_cons, hpa]
      · simp [List.find?_cons, hpa, ih]

theorem splitRuns_foldl (runs : List String) :
    ∀ (f0 : Option String) (p0 : String),
      runs.foldl splitStep (f0, p0) =
        ((runs.reverse.find? isCitRun).elim f0 (fun s => some (rustTrim s)),
         p0 ++ String.join (runs.filter (fun s => !isCitRun s))) := by
  induction runs with
  | nil => intro f0 p0; simp [String.join, str_append_empty]
  | cons s rest ih =>
      intro f0 p0
      rw [List.foldl_cons]
      by_cases hc : isCitRun s
      · have hstep : splitStep (f0, p0) s = (some (rustTrim s), p0) := by
          simp [splitStep, hc]
        rw [hstep, ih, List.reverse_cons, find?_app]
        cases hf : rest.reverse.find? isCitRun with
        | none => simp [hc, List.filter_cons, hf, List.find?]
        | some x => simp [hc, List.filter_cons, hf, List.find?]
      · have hstep : splitStep (f0, p0) s = (f0, p0 ++ s) := by
          simp [splitStep, hc]
        rw [hstep, ih, List.reverse_cons, find?_app]
        cases hf : rest.reverse.find? isCitRun with
        | none =>
            simp [hc, List.filter_cons, hf, List.find?, join_cons, str_append_assoc]
        | some x =>
            simp [hc, List.filter_cons, hf, List.find?, join_cons, str_append_assoc]

theorem splitRuns_eq (runs : List String) :
    splitRuns runs =
      ((runs.reverse.find? isCitRun).map rustTrim,
       String.join (runs.filter (fun s => !isCitRun s))) := by
  unfold splitRuns
  rw [splitRuns_foldl runs none "", str_empty_append]
  cases hf : runs.reverse.find? isCitRun <;> simp [hf]

theorem isPrefixOf_exists :
    ∀ (p l : List Char), p.isPrefixOf l = true → ∃ t, p ++ t = l := by
  intro p l hp
  simp at hp
  exact hp

theorem splitOnceL_marker_present :
    ∀ (l pat a b : List Char), splitOnceL pat l = some (a, b) → pat <:+: l := by
  intro l
  induction l with
  | nil =>
      intro pat a b h
      simp only [splitOnceL] at h
      split at h
      · next hp =>
          obtain ⟨t, ht⟩ := isPrefixOf_exists pat [] hp
          exact ⟨[], t, by simpa using ht⟩
      · exact absurd h (by simp)
  | cons c rest ih =>
      intro pat a b h
      simp only [splitOnceL] at h
      split at h
      · next hp =>
          obtain ⟨t, ht⟩ := isPrefixOf_exists pat (c :: rest) hp
          exact ⟨[], t, by simpa using ht⟩
      · cases hs : splitOnceL pat rest with
        | none => rw [hs] at h; simp at h
        | some pr =>
            obtain ⟨u, v, huv⟩ := ih pat pr.1 pr.2 (by rw [hs])
            exact ⟨c :: u, v, by simp only [List.cons_append, List.append_assoc] at huv ⊢; rw [huv]⟩

theorem resolveEntry_none_of_no_marker (q body : String)
    (h : ¬ (wordidMarker.data <:+: body.data)) : resolveEntry q body = none := by
  cases hs : splitOnceL wordidMarker.data body.data with
  | some pr =>
      exact absurd (splitOnceL_marker_present body.data wordidMarker.data pr.1 pr.2 (by rw [hs])) h
  | none => simp [resolveEntry, splitOnceS, hs]

/-! ### Claim theorems -/

/-- C1 counterexample: for the text run U+00A0, space, `a`, U+00A0 the code
produces the citation `"a"` — Rust `str::trim` also removes the inner
ordinary space — whereas stripping only the enclosing non-breaking spaces,
as the claim states, yields `" a"`. -/
theorem c1_counterexample :
    (splitRuns ["  a "]).1 = some "a" ∧
      specStripEnclosingNbsp "  a " = " a" ∧
      ¬ ((splitRuns ["  a "]).1 =
          some (specStripEnclosingNbsp "  a ")) :=
  ⟨by decide, by decide, by decide⟩

/-- C1 (amended): in the ruby text-run split, a run is taken as the source
citation exactly when both its first and its last character are U+00A0
(a run merely containing one somewhere inside stays in the phrase); the
extracted citation is that run trimmed of surrounding whitespace, which
removes the enclosing non-breaking spaces; every non-matching run is
concatenated, in original document order without sorting or deduplication,
into the phrase. -/
theorem c1_citation_and_phrase :
    (∀ runs : List String,
        (splitRuns runs).2 = String.join (runs.filter (fun s => !isCitRun s)) ∧
        (splitRuns runs).1 = (runs.reverse.find? isCitRun).map rustTrim) ∧
      splitRuns ["a b"] = (none, "a b") ∧
      splitRuns ["前", "  集 ", "後"] = (some "集", "前後") := by
  refine ⟨?_, by decide, by decide⟩
  intro runs
  rw [splitRuns_eq]
  exact ⟨rfl, rfl⟩

/-- C10: when several text runs are U+00A0-delimited, only the last one in
document order becomes the citation (`find?` on the reversed run list);
every matching run is excluded from the phrase, so earlier matching runs
appear in neither output; and the single-character run U+00A0 counts as a
citation run and yields the empty citation. -/
theorem c10_last_citation_wins :
    (∀ runs : List String,
        (splitRuns runs).1 = (runs.reverse.find? isCitRun).map rustTrim ∧
        (splitRuns runs).2 = String.join (runs.filter (fun s => !isCitRun s))) ∧
      splitRuns [" 甲 ", "a", " 乙 "] = (some "乙", "a") ∧
      isCitRun " " = true ∧
      splitRuns [" "] = (some "", "") := by
  refine ⟨?_, by decide, by decide, by decide⟩
  intro runs
  rw [splitRuns_eq]
  exact ⟨rfl, rfl⟩

/-- C2: a `wrap_ex` content element appends its trimmed descendant text;
when a next content element exists it is consumed (not re-classified) and
its trimmed text is appended after exactly one space before the line
break; a final `wrap_ex` with no following sibling is emitted alone. -/
theorem c2_wrap_ex_merge :
    (∀ (e next : Node) (rest : List Node), attrClass e = some "wrap_ex" →
        hanjaDescription (e :: next :: rest) =
          extract_text e ++ " " ++ extract_text next ++ "\n" ++
            hanjaDescription rest) ∧
    (∀ e : Node, attrClass e = some "wrap_ex" →
        hanjaDescription [e] = extract_text e ++ "\n") ∧
      hanjaDescription [wrapA, wrapB] = "fst snd\n" := by
  refine ⟨?_, ?_, by decide⟩
  · intro e next rest h
    simp [hanjaDescription, h]
  · intro e h
    simp [hanjaDescription, h]

theorem c2_witness :
    attrClass wrapA = some "wrap_ex" ∧
      hanjaDescription [wrapA, wrapB] =
        extract_text wrapA ++ " " ++ extract_text wrapB ++ "\n" ++
          hanjaDescription [] ∧
      hanjaDescription [wrapA] = extract_text wrapA ++ "\n" :=
  ⟨rfl, c2_wrap_ex_merge.1 wrapA wrapB [] rfl, c2_wrap_ex_merge.2.1 wrapA rfl⟩

/-- C4: in an `item_example` list, a child with a `.desc_ruby` descendant
emits exactly one block — the bullet marker, the trimmed phrase, the
reading in parentheses when a `.desc_ex` descendant exists, the citation
wrapped in the fixed glyph pair when one was found, then a line break —
while a child without a `.desc_ruby` descendant emits nothing. -/
theorem c4_item_example_blocks :
    (∀ li : Node, select isRuby li = [] → liBlock li = "") ∧
      liBlock sampleLi = "> 水道(수도) 《전운옥편》\n" ∧
      itemExample itemElem = "> 水道(수도) 《전운옥편》\n" ∧
      hanjaDescription [itemElem] = "> 水道(수도) 《전운옥편》\n" := by
  refine ⟨?_, by decide, by decide, by decide⟩
  intro li h
  simp [liBlock, h]

theorem c4_witness : select isRuby bareLi = [] ∧ liBlock bareLi = "" :=
  ⟨rfl, c4_item_example_blocks.1 bareLi rfl⟩

/-- C5: an `ex_refer` content element emits one block — the fixed glyph
marker, then the trimmed text of every `.txt_refer.on` descendant
concatenated in order with no separator, then a line break; two reference
spans `A` and `B` yield the marker followed by `AB`. -/
theorem c5_cross_reference :
    (∀ (e : Node) (rest : List Node), attrClass e = some "ex_refer" →
        hanjaDescription (e :: rest) =
          "<:rui:1363124010136764516> " ++
            String.join ((select isRefer e).map extract_text) ++ "\n" ++
            hanjaDescription rest) ∧
      exRefer referSample = "<:rui:1363124010136764516> AB\n" ∧
      hanjaDescription [referSample] = "<:rui:1363124010136764516> AB\n" := by
  refine ⟨?_, by decide, by decide⟩
  intro e rest h
  cases rest with
  | nil => simp [hanjaDescription, exRefer, h, str_append_empty]
  | cons n rs => simp [hanjaDescription, exRefer, h]

theorem c5_witness :
    attrClass referSample = some "ex_refer" ∧
      hanjaDescription [referSample] =
        "<:rui:1363124010136764516> " ++
          String.join ((select isRefer referSample).map extract_text) ++ "\n" ++
          hanjaDescription [] :=
  ⟨rfl, c5_cross_reference.1 referSample [] rfl⟩

/-- C3: the search resolver uses only the first candidate — the id after
the first `/word/view.do?wordid=` occurrence up to the next `"` is
returned exactly when the text after the following `class="txt_emph1">`
marker starts with the query (prefix semantics, so query `水` accepts
headword `水道`); when the marker sequence is absent or the headword does
not start with the query, the result is `none` and no later candidate is
tried. -/
theorem c3_search_resolution :
    (∀ q body : String,
        ¬ (wordidMarker.data <:+: body.data) → resolveEntry q body = none) ∧
      resolveEntry "水" searchBody1 = some "12345" ∧
      resolveEntry "水" searchBody2 = none ∧
      resolveEntry "水" searchBody3 = none := by
  refine ⟨?_, by decide, by decide, by decide⟩
  intro q body h
  exact resolveEntry_none_of_no_marker q body h

theorem c3_witness :
    ¬ (wordidMarker.data <:+: ("" : String).data) ∧ resolveEntry "水" "" = none := by
  have hm : wordidMarker.data.length = 21 := rfl
  have h : ¬ (wordidMarker.data <:+: ("" : String).data) := by
    rintro ⟨u, v, huv⟩
    have hlen := congrArg List.length huv
    rw [data_empty_str] at hlen
    simp [List.length_append, hm] at hlen
  exact ⟨h, c3_search_resolution.1 "水" "" h⟩

/-- C6 counterexample: on an entry document without the `.txt_read` marker
the code calls `Option::unwrap` on `None`, so the outcome is the
process-aborting panic, not the contained `UnexpectedStructure` error the
claim describes (the spec-modelled `specExtractReading` shows what a
contained error would be). -/
theorem c6_counterexample :
    select isRead docNoRead = [] ∧
      extractReading docNoRead = ReadOutcome.panicked ∧
      specExtractReading docNoRead = Except.error DictError.unexpectedStructure :=
  ⟨rfl, rfl, rfl⟩

/-- C6 (amended): the reading extractor selects the first `.txt_read`
element and concatenates all of its descendant text runs; when that marker
is absent, the query does not produce a contained error — the `unwrap`
panics, aborting the whole process. -/
theorem c6_reading_extraction :
    (∀ (doc el : Node) (rest : List Node), select isRead doc = el :: rest →
        extractReading doc = ReadOutcome.ok (String.join (textRuns el))) ∧
    (∀ doc : Node, select isRead doc = [] →
        extractReading doc = ReadOutcome.panicked) := by
  constructor
  · intro doc el rest h
    simp [extractReading, h]
  · intro doc h
    simp [extractReading, h]

theorem c6_witness :
    select isRead docRead = [Node.elem (some "txt_read") [Node.text "물 수"]] ∧
      extractReading docRead = ReadOutcome.ok "물 수" := by
  refine ⟨rfl, ?_⟩
  have h := c6_reading_extraction.1 docRead
    (Node.elem (some "txt_read") [Node.text "물 수"]) [] rfl
  exact h.trans (by decide)

/-- C7: a content element whose class marker is none of `wrap_ex`,
`item_example`, `ex_refer` is silently skipped — it contributes nothing
and parsing continues with the remaining elements, with no error. -/
theorem c7_unknown_skipped :
    (∀ (e : Node) (rest : List Node),
        attrClass e ≠ some "wrap_ex" → attrClass e ≠ some "item_example" →
        attrClass e ≠ some "ex_refer" →
        hanjaDescription (e :: rest) = hanjaDescription rest) ∧
      hanjaDescription [mysteryElem, wrapA] = hanjaDescription [wrapA] := by
  refine ⟨?_, by decide⟩
  intro e rest h1 h2 h3
  cases rest with
  | nil => simp [hanjaDescription, h1, h2, h3]
  | cons n rs => simp [hanjaDescription, h1, h2, h3]

theorem c7_witness :
    attrClass mysteryElem ≠ some "wrap_ex" ∧
      attrClass mysteryElem ≠ some "item_example" ∧
      attrClass mysteryElem ≠ some "ex_refer" ∧
      hanjaDescription [mysteryElem] = hanjaDescription [] :=
  ⟨by decide, by decide, by decide,
    c7_unknown_skipped.1 mysteryElem [] (by decide) (by decide) (by decide)⟩

theorem rustTrim_empty : rustTrim "" = "" := rfl

theorem data_nl_ss : ("\n**" : String).data = ['\n', '*', '*'] := rfl

theorem data_ss_nl : ("**\n" : String).data = ['*', '*', '\n'] := rfl

theorem data_nl_lit : ("\n" : String).data = ['\n'] := rfl

theorem data_ss_lit : ("**" : String).data = ['*', '*'] := rfl

theorem data_ssss : ("****" : String).data = ['*', '*', '*', '*'] := rfl

/-- C8: the formatter output is exactly the heading line containing the
query, then the bolded reading line with the reading trimmed, then the
parser's already newline-terminated description appended raw; it is a
total pure function; an empty reading is passed through as-is, never
synthesized. -/
theorem c8_format_output :
    (∀ q r d : String,
        formatOutput q r d =
          ("# " ++ q ++ "\n") ++ ("**" ++ rustTrim r ++ "**" ++ "\n") ++ d) ∧
    (∀ q d : String,
        formatOutput q "" d = ("# " ++ q ++ "\n") ++ ("****" ++ "\n") ++ d) := by
  constructor
  · intro q r d
    apply String.ext
    simp [formatOutput, String.data_append, data_nl_ss, data_ss_nl,
      data_nl_lit, data_ss_lit, List.append_assoc]
  · intro q d
    apply String.ext
    simp [formatOutput, String.data_append, rustTrim_empty, data_empty_str,
      data_nl_ss, data_ss_nl, data_nl_lit, data_ss_lit, data_ssss,
      List.append_assoc]

/-- C9: the description parser and the output formatter are deterministic
pure functions — two runs on the same supplement document yield the same
description, and formatting the same parsed entry twice yields identical
output. -/
theorem c9_deterministic :
    (∀ doc : Node,
        hanjaDescription (contentElements doc) =
          hanjaDescription (contentElements doc)) ∧
    (∀ q r d : String, formatOutput q r d = formatOutput q r d) :=
  ⟨fun _ => rfl, fun _ _ _ => rfl⟩
